import Mathlib

/-!
Shallow embedding of the Vocalis real-time audio pipeline.

The definitions below are translated from
`frontend/src/services/audio.ts` (class `AudioService`) and from the
`SessionManager` component's `handleSaveSessionResult` handler.
Browser-side effects (event dispatch, WebSocket sends, source start/stop,
timer arm/clear) are reified as an `Effect` list returned next to the
updated state; wall-clock reads (`Date.now()`) become an explicit `now`
argument.  Audio samples are modelled as exact rationals.
-/

set_option maxHeartbeats 1000000

namespace Vocalis

/-- States of the audio service (`enum AudioState`, audio.ts). -/
inductive AudioState
  | INACTIVE
  | RECORDING
  | PLAYING
  | SPEAKING
  | INTERRUPTED
deriving DecidableEq

/-- Reason string attached to the interrupt-path `PLAYBACK_STOP` event
(the only reason literal the source ever attaches). -/
inductive StopReason
  | user_interrupt
deriving DecidableEq

/-- A decoded audio buffer (`AudioBuffer` from `decodeAudioData`).  The
playback controller only observes its `duration` (in seconds); the decoded
samples themselves are opaque to the queue logic. -/
structure AudioBuf where
  duration : Rat
deriving DecidableEq

/-- Events dispatched through `dispatchEvent` (`enum AudioEvent` plus the
payload fields the source attaches at each dispatch site). -/
inductive Event
  | recordingStart
  | recordingStop
  | recordingData (buffer : List Rat) (energySq : Rat) (isVoice : Bool)
  | playbackStart
  | playbackStop (interrupted : Bool) (reason : Option StopReason)
      (previousState : Option AudioState)
  | playbackEnd (previousState : AudioState) (error : Bool) (timeout : Bool)
  | audioError
deriving DecidableEq

/-- Observable effects of one synchronous run of the service code. -/
inductive Effect
  | dispatch (e : Event)
  | wsInterrupt
  | wsSendAudio (wav : List Nat)
  | sourceStop
  | sourceStart (b : AudioBuf)
  | armTimeout (ms : Rat)
  | clearTimeout
deriving DecidableEq

/-- `DEFAULT_CONFIG.sampleRate` (the singleton is built with defaults). -/
def sampleRate : Nat := 44100

/-- `voiceThreshold = 0.01` (audio.ts line 82). -/
def voiceThreshold : Rat := 1 / 100

/-- `silenceTimeout = 1000` ms (audio.ts line 83). -/
def silenceTimeout : Int := 1000

/-- `minRecordingLength = 1000` ms (audio.ts line 85). -/
def minRecordingLength : Rat := 1000

/-- The mutable fields of `AudioService` that the verified operations read
or write.  Timer handles are modelled by the armed duration (`some d` while
a timeout handle is stored, `none` after it is nulled). -/
structure AudioServiceState where
  audioBuffer : List (List Rat)
  audioState : AudioState
  audioQueue : List AudioBuf
  isPlaying : Bool
  isSpeaking : Bool
  isProcessing : Bool
  isGreeting : Bool
  isVisionProcessing : Bool
  isVoiceDetected : Bool
  lastVoiceTime : Int
  currentSource : Option AudioBuf
  playbackTimeoutId : Option Rat
deriving DecidableEq

/-- A neutral service state (all fields as after construction). -/
def initState : AudioServiceState :=
  { audioBuffer := []
    audioState := AudioState.INACTIVE
    audioQueue := []
    isPlaying := false
    isSpeaking := false
    isProcessing := false
    isGreeting := false
    isVisionProcessing := false
    isVoiceDetected := false
    lastVoiceTime := 0
    currentSource := none
    playbackTimeoutId := none }

/-- Squared RMS energy of a frame.  `calculateRMSEnergy` computes
`sqrt(sum of squares / length)` and every consumer only compares the
result against `voiceThreshold`; since `sqrt` is strictly monotone on
nonnegatives, `rms > t` (with `t ≥ 0`) is equivalent to
`sum/len > t^2`, which lets the embedding stay in exact rational
arithmetic.  An empty frame gives `0/0 = 0` here and `NaN` in JS; both
fail the `> voiceThreshold` test. -/
def calculateRMSEnergySq (buffer : List Rat) : Rat :=
  (buffer.foldl (fun sum x => sum + x * x) 0) / (buffer.length : Rat)

/-- JS `ToInt16`-style truncation toward zero of a rational. -/
def ratTrunc (q : Rat) : Int :=
  if q < 0 then Int.ceil q else Int.floor q

/-- Per-sample conversion in `float32ToWav`: clamp to `[-1, 1]`, scale
negatives by 32768 and non-negatives by 32767, then truncate as
`DataView.setInt16` does. -/
def sampleToInt16 (x : Rat) : Int :=
  let sample := max (-1 : Rat) (min 1 x)
  let val := if sample < 0 then sample * 32768 else sample * 32767
  ratTrunc val

/-- Little-endian bytes of a 16-bit unsigned write (`setUint16`). -/
def u16le (v : Nat) : List Nat :=
  [v % 256, v / 256 % 256]

/-- Little-endian bytes of a 32-bit unsigned write (`setUint32`, which
wraps modulo `2^32`). -/
def u32le (v : Nat) : List Nat :=
  [v % 256, v / 256 % 256, v / 65536 % 256, v / 16777216 % 256]

/-- Little-endian bytes of a 16-bit signed write (`setInt16`):
two's-complement wrap modulo `2^16`. -/
def i16le (v : Int) : List Nat :=
  u16le (v % 65536).toNat

/-- `writeString`: ASCII codes of the characters. -/
def asciiBytes (cs : List Char) : List Nat :=
  cs.map Char.toNat

/-- The 44-byte WAV header written by `float32ToWav` (offsets 0..43 are
covered consecutively by the writes, so concatenation is exact). -/
def wavHeader (dataSize : Nat) (sampleRate' : Nat) : List Nat :=
  let numChannels := 1
  let bytesPerSample := 2
  let headerSize := 44
  let totalSize := headerSize + dataSize
  asciiBytes ['R', 'I', 'F', 'F'] ++ u32le (totalSize - 8) ++
  asciiBytes ['W', 'A', 'V', 'E'] ++
  asciiBytes ['f', 'm', 't', ' '] ++ u32le 16 ++ u16le 1 ++
  u16le numChannels ++ u32le sampleRate' ++
  u32le (sampleRate' * numChannels * bytesPerSample) ++
  u16le (numChannels * bytesPerSample) ++ u16le (bytesPerSample * 8) ++
  asciiBytes ['d', 'a', 't', 'a'] ++ u32le dataSize

/-- `float32ToWav`: header followed by the converted 16-bit PCM data. -/
def float32ToWav (buffer : List Rat) (sampleRate' : Nat) : List Nat :=
  let bytesPerSample := 2
  let dataSize := buffer.length * bytesPerSample
  wavHeader dataSize sampleRate' ++
  (buffer.map (fun x => i16le (sampleToInt16 x))).flatten

/-- Little-endian decode of the 4 bytes found at a given offset. -/
def decodeU32le : List Nat → Nat → Nat
  | b0 :: b1 :: b2 :: b3 :: _, 0 =>
      b0 + 256 * b1 + 65536 * b2 + 16777216 * b3
  | _ :: rest, n + 1 => decodeU32le rest n
  | _, _ => 0

/-- Total sample count of the accumulation buffer
(`reduce((acc, buffer) => acc + buffer.length, 0)`). -/
def totalSamples (bufs : List (List Rat)) : Nat :=
  bufs.foldl (fun acc buffer => acc + buffer.length) 0

/-- `audioLengthMs = (totalLength / sampleRate) * 1000`. -/
def audioLengthMs (bufs : List (List Rat)) : Rat :=
  ((totalSamples bufs : Nat) : Rat) / (sampleRate : Rat) * 1000

/-- `sendAudioChunk` (audio.ts lines 615-658). -/
def sendAudioChunk (s : AudioServiceState) : AudioServiceState × List Effect :=
  if s.audioBuffer.length = 0 then
    (s, [])
  else if s.isProcessing then
    ({ s with audioBuffer := [] }, [])
  else if s.isVoiceDetected = false ∧ audioLengthMs s.audioBuffer < minRecordingLength then
    ({ s with audioBuffer := [] }, [])
  else
    ({ s with audioBuffer := [] },
     [Effect.wsSendAudio (float32ToWav s.audioBuffer.flatten sampleRate)])

/-- The `if (this.playbackTimeoutId !== null) { clearTimeout(...); ... }`
pattern that opens `playNextChunk`, `source.onended`, `stopPlayback` and
`releaseHardware`. -/
def clearPlaybackTimeout (s : AudioServiceState) : AudioServiceState × List Effect :=
  match s.playbackTimeoutId with
  | some _ => ({ s with playbackTimeoutId := none }, [Effect.clearTimeout])
  | none => (s, [])

/-- `stopPlayback` (audio.ts lines 902-943).  Returns immediately when no
source is active. -/
def stopPlayback (s : AudioServiceState) : AudioServiceState × List Effect :=
  match s.currentSource with
  | none => (s, [])
  | some _ =>
    let previousState := s.audioState
    let (s1, effClear) := clearPlaybackTimeout s
    let s2 : AudioServiceState :=
      { s1 with currentSource := none
                audioQueue := []
                audioState :=
                  if previousState = AudioState.SPEAKING then
                    AudioState.INTERRUPTED
                  else AudioState.INACTIVE
                isPlaying := false
                isSpeaking := false }
    (s2, effClear ++
      [Effect.sourceStop,
       Effect.dispatch (Event.playbackStop
         (decide (previousState = AudioState.SPEAKING)) none (some previousState))])

/-- `playNextChunk` (audio.ts lines 731-850), success path of
`source.start` (the catch branch only runs when the platform call throws,
which the embedding treats as non-occurring).  The queue-empty branch
resets the flags and dispatches `PLAYBACK_END`; otherwise the head buffer
is shifted, started, and a safety timeout of
`duration * 1000 + 1000` ms is armed; `PLAYBACK_START` is dispatched only
when the controller was not already playing. -/
def playNextChunk (s : AudioServiceState) : AudioServiceState × List Effect :=
  let (s1, effClear) := clearPlaybackTimeout s
  match s1.audioQueue with
  | [] =>
    ({ s1 with isPlaying := false
               isSpeaking := false
               audioState := AudioState.INACTIVE },
     effClear ++ [Effect.dispatch (Event.playbackEnd AudioState.SPEAKING false false)])
  | buffer :: rest =>
    let wasPlaying := s1.isPlaying
    let timeoutDuration := buffer.duration * 1000 + 1000
    let s2 : AudioServiceState :=
      { s1 with audioQueue := rest
                isPlaying := true
                isSpeaking := true
                audioState := AudioState.SPEAKING
                currentSource := some buffer
                playbackTimeoutId := some timeoutDuration }
    (s2, effClear ++
      [Effect.sourceStart buffer, Effect.armTimeout timeoutDuration] ++
      (if wasPlaying then [] else [Effect.dispatch Event.playbackStart]))

/-- `playAudioChunk` (audio.ts lines 669-726) after `decodeAudioData`
settles: `some b` is the successful-decode continuation (enqueue, start
if idle), `none` the decode-error catch branch. -/
def playAudioChunk (s : AudioServiceState) (decoded : Option AudioBuf) :
    AudioServiceState × List Effect :=
  match decoded with
  | some audioBuffer =>
    let s1 := { s with audioQueue := s.audioQueue ++ [audioBuffer] }
    match s1.isPlaying with
    | false => playNextChunk s1
    | true => (s1, [])
  | none =>
    match s.audioQueue with
    | [] =>
      ({ s with isPlaying := false
                isSpeaking := false
                audioState := AudioState.INACTIVE },
       [Effect.dispatch Event.audioError,
        Effect.dispatch (Event.playbackEnd AudioState.SPEAKING true false)])
    | _ :: _ =>
      (s, [Effect.dispatch Event.audioError])

/-- The `source.onended` completion callback installed by
`playNextChunk` (audio.ts lines 771-794): cancel the safety timeout, then
either advance the queue or finish playback. -/
def sourceOnEnded (s : AudioServiceState) : AudioServiceState × List Effect :=
  let (s1, effClear) := clearPlaybackTimeout s
  match s1.audioQueue with
  | _ :: _ =>
    let (s2, effs) := playNextChunk s1
    (s2, effClear ++ effs)
  | [] =>
    ({ s1 with isPlaying := false
               isSpeaking := false
               audioState := AudioState.INACTIVE
               currentSource := none },
     effClear ++ [Effect.dispatch (Event.playbackEnd AudioState.SPEAKING false false)])

/-- The safety-timeout handler installed by `playNextChunk` (audio.ts
lines 805-819).  The stored timer handle goes stale rather than null
(the handler does not clear `playbackTimeoutId` itself), matching the
source; the next `clearPlaybackTimeout` call still issues a (no-op)
`clearTimeout` exactly as the JS does. -/
def playbackTimeoutFires (s : AudioServiceState) : AudioServiceState × List Effect :=
  let s1 := { s with currentSource := none }
  match s1.audioQueue with
  | _ :: _ =>
    playNextChunk s1
  | [] =>
    ({ s1 with isPlaying := false
               isSpeaking := false
               audioState := AudioState.INACTIVE },
     [Effect.dispatch (Event.playbackEnd AudioState.SPEAKING false true)])

/-- The fall-through part of `handleAudioProcess` after the
voice-detection block (audio.ts lines 520-551): protected-state
visualization-only return, buffer accumulation, silence-timeout
finalization, and the closing `RECORDING_DATA` dispatch. -/
def handleAudioProcessTail (s : AudioServiceState) (frame : List Rat)
    (energySq : Rat) (now : Int) : AudioServiceState × List Effect :=
  if s.isProcessing ∨ s.isVisionProcessing ∨ s.isGreeting then
    (s, [Effect.dispatch (Event.recordingData frame energySq false)])
  else if s.isVoiceDetected then
    let s1 := { s with audioBuffer := s.audioBuffer ++ [frame] }
    let timeSinceVoice := now - s1.lastVoiceTime
    if energySq ≤ voiceThreshold ^ 2 ∧ timeSinceVoice > silenceTimeout then
      let s2 := { s1 with isVoiceDetected := false }
      let (s3, sendEffs) := sendAudioChunk s2
      (s3, sendEffs ++
        [Effect.dispatch (Event.recordingData frame energySq s3.isVoiceDetected)])
    else
      (s1, [Effect.dispatch (Event.recordingData frame energySq s1.isVoiceDetected)])
  else
    (s, [Effect.dispatch (Event.recordingData frame energySq s.isVoiceDetected)])

/-- `handleAudioProcess` (audio.ts lines 462-552).  `now` stands for the
`Date.now()` reads (the two reads of one invocation are identified, which
only slack the silence timeout by the frame's own processing time). -/
def handleAudioProcess (s : AudioServiceState) (frame : List Rat) (now : Int) :
    AudioServiceState × List Effect :=
  let energySq := calculateRMSEnergySq frame
  if energySq > voiceThreshold ^ 2 then
    if s.isProcessing ∨ s.isVisionProcessing ∨ s.isGreeting then
      (s, [Effect.dispatch (Event.recordingData frame energySq false)])
    else
      let (s1, onsetEffs) :=
        if s.isVoiceDetected = false then
          let sv := { s with isVoiceDetected := true }
          if (sv.isSpeaking ∨ sv.audioState = AudioState.SPEAKING) ∧ ¬sv.isGreeting then
            let (sw, stopEffs) := stopPlayback sv
            (sw, stopEffs ++
              [Effect.wsInterrupt,
               Effect.dispatch (Event.playbackStop true
                 (some StopReason.user_interrupt) none)])
          else (sv, [])
        else (s, [])
      let s2 := { s1 with lastVoiceTime := now }
      let (s3, tailEffs) := handleAudioProcessTail s2 frame energySq now
      (s3, onsetEffs ++ tailEffs)
  else
    handleAudioProcessTail s frame energySq now

/-- `stopRecording` (audio.ts lines 399-445), restricted to the
state-machine-visible part: flush the accumulated audio through
`sendAudioChunk`, reset the state, dispatch `RECORDING_STOP`.  (Media
stream and script-processor teardown touch only platform handles.) -/
def stopRecording (s : AudioServiceState) : AudioServiceState × List Effect :=
  if s.audioState ≠ AudioState.RECORDING then
    (s, [])
  else
    let (s1, sendEffs) := sendAudioChunk s
    ({ s1 with audioState := AudioState.INACTIVE, audioBuffer := [] },
     sendEffs ++ [Effect.dispatch Event.recordingStop])

/-- Run `handleAudioProcess` over a timed sequence of captured frames,
accumulating the emitted effects. -/
def processFrames : AudioServiceState → List (List Rat × Int) →
    AudioServiceState × List Effect
  | s, [] => (s, [])
  | s, (frame, now) :: rest =>
    let (s1, e1) := handleAudioProcess s frame now
    let (s2, e2) := processFrames s1 rest
    (s2, e1 ++ e2)

/-- External stimuli driving the playback controller: a decoded chunk
arriving via `playAudioChunk`, the `onended` completion callback, the
safety timer firing, and `stopPlayback`. -/
inductive PlayerAction
  | enqueue (b : AudioBuf)
  | ended
  | timeout
  | stop
deriving DecidableEq

/-- One stimulus step of the playback controller. -/
def playerStep (s : AudioServiceState) : PlayerAction → AudioServiceState × List Effect
  | PlayerAction.enqueue b => playAudioChunk s (some b)
  | PlayerAction.ended => sourceOnEnded s
  | PlayerAction.timeout => playbackTimeoutFires s
  | PlayerAction.stop => stopPlayback s

/-- Run a stimulus sequence, accumulating effects. -/
def playerRun : AudioServiceState → List PlayerAction → AudioServiceState × List Effect
  | s, [] => (s, [])
  | s, a :: rest =>
    let (s1, e1) := playerStep s a
    let (s2, e2) := playerRun s1 rest
    (s2, e1 ++ e2)

/-- The stimulus sequence of one streamed batch: every chunk arrives and
is enqueued, then each started buffer completes normally. -/
def batchActions (bs : List AudioBuf) : List PlayerAction :=
  bs.map PlayerAction.enqueue ++ List.replicate bs.length PlayerAction.ended

/-- Buffers handed to `source.start`, in emission order. -/
def startedBuffers (effs : List Effect) : List AudioBuf :=
  effs.filterMap (fun e =>
    match e with
    | Effect.sourceStart b => some b
    | _ => none)

/-- Recognizer for the `PLAYBACK_START` dispatch. -/
def isPlaybackStartEv (e : Effect) : Bool :=
  match e with
  | Effect.dispatch Event.playbackStart => true
  | _ => false

/-- Recognizer for any `PLAYBACK_END` dispatch. -/
def isPlaybackEndEv (e : Effect) : Bool :=
  match e with
  | Effect.dispatch (Event.playbackEnd _ _ _) => true
  | _ => false

/-- Recognizer for the server interrupt signal. -/
def isWsInterrupt (e : Effect) : Bool :=
  match e with
  | Effect.wsInterrupt => true
  | _ => false

/-- Recognizer for an utterance sent to the server. -/
def isWsSend (e : Effect) : Bool :=
  match e with
  | Effect.wsSendAudio _ => true
  | _ => false

/-- Effects of the session-manager handlers. -/
inductive SessionEffect
  | fetchSessions
deriving DecidableEq

/-- Payload of a `save_session_result` message (the fields the handler
reads; session ids are opaque and modelled as naturals). -/
structure SaveSessionResult where
  success : Bool
  session_id : Option Nat
deriving DecidableEq

/-- The error banner set by the handler's failure branch. -/
inductive SessionError
  | saveFailed
deriving DecidableEq

/-- The `SessionManager` component state the handler touches:
`lastRefreshAt` ref, `currentSessionId`, and the error banner. -/
structure SessionManagerState where
  lastRefreshAt : Int
  currentSessionId : Option Nat
  errorMsg : Option SessionError
deriving DecidableEq

/-- `handleSaveSessionResult` (SessionManager): on success record the
session id, then refresh the sessions list only when more than 2000 ms
have passed since the previous refresh. -/
def handleSaveSessionResult (s : SessionManagerState) (data : SaveSessionResult)
    (now : Int) : SessionManagerState × List SessionEffect :=
  if data.success then
    let s1 :=
      match data.session_id with
      | some sid =>
        { s with currentSessionId := some sid }
      | none => s
    if now - s1.lastRefreshAt > 2000 then
      ({ s1 with lastRefreshAt := now }, [SessionEffect.fetchSessions])
    else
      (s1, [])
  else
    ({ s with errorMsg := some SessionError.saveFailed }, [])

/-- Feed a timed sequence of `save_session_result` messages to the
handler, collecting the timestamps at which a listing refresh fired. -/
def sessionRun : SessionManagerState → List (SaveSessionResult × Int) →
    SessionManagerState × List Int
  | s, [] => (s, [])
  | s, (data, now) :: rest =>
    let (s1, effs) := handleSaveSessionResult s data now
    let (s2, ts) := sessionRun s1 rest
    (s2, (if SessionEffect.fetchSessions ∈ effs then [now] else []) ++ ts)

end Vocalis

namespace Vocalis

/-! Helper lemmas about the playback controller runs. -/

/-- Unfolding one stimulus step of `playerRun`. -/
theorem playerRun_cons (s : AudioServiceState) (a : PlayerAction) (rest : List PlayerAction) :
    playerRun s (a :: rest) =
      ((playerRun (playerStep s a).1 rest).1,
       (playerStep s a).2 ++ (playerRun (playerStep s a).1 rest).2) := rfl

/-- `playerRun` splits over concatenated stimulus sequences. -/
theorem playerRun_append (l1 l2 : List PlayerAction) : ∀ s : AudioServiceState,
    playerRun s (l1 ++ l2) =
      ((playerRun (playerRun s l1).1 l2).1,
       (playerRun s l1).2 ++ (playerRun (playerRun s l1).1 l2).2) := by
  induction l1 with
  | nil => intro s; simp [playerRun]
  | cons a l ih => intro s; simp [playerRun_cons, ih, List.append_assoc]

/-- While already playing, a decoded chunk is only appended to the queue. -/
theorem playAudioChunk_while_playing (s : AudioServiceState) (b : AudioBuf)
    (hp : s.isPlaying = true) :
    playAudioChunk s (some b) = ({ s with audioQueue := s.audioQueue ++ [b] }, []) := by
  simp [playAudioChunk, hp]

/-- While already playing, a whole burst of decoded chunks is appended in
arrival order with no observable effect. -/
theorem playerRun_enqueues_while_playing (bs : List AudioBuf) : ∀ s : AudioServiceState,
    s.isPlaying = true →
    playerRun s (bs.map PlayerAction.enqueue) =
      ({ s with audioQueue := s.audioQueue ++ bs }, []) := by
  induction bs with
  | nil => intro s hp; simp [playerRun]
  | cons b rest ih =>
    intro s hp
    rw [List.map_cons, playerRun_cons]
    simp only [playerStep, playAudioChunk_while_playing s b hp]
    rw [ih { s with audioQueue := s.audioQueue ++ [b] } hp]
    simp [List.append_assoc]

/-- A completion signal while more chunks are queued starts exactly the
head chunk, with no start/end event. -/
theorem ended_advances (s : AudioServiceState) (b : AudioBuf) (rest : List AudioBuf)
    (hp : s.isPlaying = true) (hq : s.audioQueue = b :: rest) :
    ∃ s' e1, playerStep s PlayerAction.ended = (s', e1) ∧
      s'.isPlaying = true ∧ s'.audioQueue = rest ∧
      startedBuffers e1 = [b] ∧ e1.countP isPlaybackStartEv = 0 ∧
      e1.countP isPlaybackEndEv = 0 := by
  refine ⟨_, _, rfl, ?_, ?_, ?_, ?_, ?_⟩ <;>
    cases htid : s.playbackTimeoutId <;>
      simp [playerStep, sourceOnEnded, clearPlaybackTimeout, playNextChunk, hq, hp, htid,
        startedBuffers, isPlaybackStartEv, isPlaybackEndEv, List.countP_cons, List.countP_append]

/-- Enqueueing into an idle controller starts the chunk at once and fires
exactly one start event. -/
theorem enqueue_starts_idle (s : AudioServiceState) (b : AudioBuf)
    (hp : s.isPlaying = false) (hq : s.audioQueue = []) :
    ∃ s' e1, playerStep s (PlayerAction.enqueue b) = (s', e1) ∧
      s'.isPlaying = true ∧ s'.audioQueue = [] ∧
      startedBuffers e1 = [b] ∧ e1.countP isPlaybackStartEv = 1 ∧
      e1.countP isPlaybackEndEv = 0 := by
  refine ⟨_, _, rfl, ?_, ?_, ?_, ?_, ?_⟩ <;>
    cases htid : s.playbackTimeoutId <;>
      simp [playerStep, playAudioChunk, playNextChunk, clearPlaybackTimeout, hq, hp, htid,
        startedBuffers, isPlaybackStartEv, isPlaybackEndEv, List.countP_cons, List.countP_append]

/-- Draining a playing controller: one completion per remaining chunk plus
one for the chunk in flight plays the queue in order and fires exactly one
end event and no start event. -/
theorem playerRun_drain (q : List AudioBuf) : ∀ s : AudioServiceState,
    s.isPlaying = true → s.audioQueue = q →
    startedBuffers (playerRun s (List.replicate (q.length + 1) PlayerAction.ended)).2 = q ∧
    (playerRun s (List.replicate (q.length + 1) PlayerAction.ended)).2.countP isPlaybackStartEv = 0 ∧
    (playerRun s (List.replicate (q.length + 1) PlayerAction.ended)).2.countP isPlaybackEndEv = 1 := by
  induction q with
  | nil =>
    intro s hp hq
    cases htid : s.playbackTimeoutId <;>
      simp [playerRun, playerStep, sourceOnEnded, clearPlaybackTimeout, hq, htid,
        startedBuffers, isPlaybackStartEv, isPlaybackEndEv, List.countP_cons,
        List.countP_append]
  | cons b rest ih =>
    intro s hp hq
    obtain ⟨s', e1, hstep, hp', hq', hsb, hcs, hce⟩ := ended_advances s b rest hp hq
    rw [show (b :: rest).length + 1 = (rest.length + 1) + 1 by simp, List.replicate_succ,
      playerRun_cons, hstep]
    obtain ⟨ih1, ih2, ih3⟩ := ih s' hp' hq'
    refine ⟨?_, ?_, ?_⟩
    · simp only [startedBuffers, List.filterMap_append] at hsb ih1 ⊢
      rw [hsb, ih1]
      simp
    · simp only [List.countP_append, hcs, ih2]
    · simp only [List.countP_append, hce, ih3]

end Vocalis

namespace Vocalis

/-! Helper lemmas about capture, finalization and the session manager. -/

/-- A frame at or below the threshold, seen while no voice is active,
leaves the whole service state unchanged and only surfaces the frame. -/
theorem silent_frame_inert (s : AudioServiceState) (frame : List Rat) (now : Int)
    (hvd : s.isVoiceDetected = false)
    (hsil : calculateRMSEnergySq frame ≤ voiceThreshold ^ 2) :
    handleAudioProcess s frame now =
      (s, [Effect.dispatch (Event.recordingData frame (calculateRMSEnergySq frame) false)]) := by
  simp [handleAudioProcess, handleAudioProcessTail, not_lt.mpr hsil, hvd, ite_self]

/-- A run of all-silent frames leaves the state unchanged and sends
nothing to the server. -/
theorem silent_run_inert (frames : List (List Rat × Int)) : ∀ s : AudioServiceState,
    s.isVoiceDetected = false →
    (∀ p ∈ frames, calculateRMSEnergySq p.1 ≤ voiceThreshold ^ 2) →
    (processFrames s frames).1 = s ∧ (processFrames s frames).2.countP isWsSend = 0 := by
  induction frames with
  | nil => intro s _ _; simp [processFrames]
  | cons p rest ih =>
    intro s hvd hq
    obtain ⟨frame, now⟩ := p
    have h1 := silent_frame_inert s frame now hvd (hq _ (List.mem_cons_self _ _))
    have h2 := ih s hvd (fun q hmem => hq q (List.mem_cons_of_mem _ hmem))
    simp [processFrames, h1, isWsSend, List.countP_cons, List.countP_append, h2.1, h2.2]

/-- A `save_session_result` either refreshes (stamping `lastRefreshAt`)
because the 2000 ms window has passed, or leaves the stamp alone and
refreshes nothing. -/
theorem saveResult_step_cases (s : SessionManagerState) (d : SaveSessionResult) (now : Int) :
    (2000 < now - s.lastRefreshAt ∧
      (handleSaveSessionResult s d now).1.lastRefreshAt = now ∧
      (handleSaveSessionResult s d now).2 = [SessionEffect.fetchSessions]) ∨
    ((handleSaveSessionResult s d now).1.lastRefreshAt = s.lastRefreshAt ∧
      (handleSaveSessionResult s d now).2 = []) := by
  obtain ⟨suc, sid⟩ := d
  cases suc with
  | false => right; constructor <;> simp [handleSaveSessionResult]
  | true =>
    cases sid with
    | none =>
      by_cases hc : 2000 < now - s.lastRefreshAt
      · left; refine ⟨hc, ?_, ?_⟩ <;> simp [handleSaveSessionResult, hc]
      · right; constructor <;> simp [handleSaveSessionResult, hc]
    | some sid =>
      by_cases hc : 2000 < now - s.lastRefreshAt
      · left; refine ⟨hc, ?_, ?_⟩ <;> simp [handleSaveSessionResult, hc]
      · right; constructor <;> simp [handleSaveSessionResult, hc]

/-- Unfolding one message of `sessionRun`. -/
theorem sessionRun_cons_snd (s : SessionManagerState) (d : SaveSessionResult) (now : Int)
    (rest : List (SaveSessionResult × Int)) :
    (sessionRun s ((d, now) :: rest)).2 =
      (if SessionEffect.fetchSessions ∈ (handleSaveSessionResult s d now).2 then [now] else []) ++
        (sessionRun (handleSaveSessionResult s d now).1 rest).2 := rfl

/-- Consecutive refresh timestamps of any message run are more than
2000 ms apart, and the first one clears the stamp the run started from. -/
theorem sessionRun_refresh_gaps (msgs : List (SaveSessionResult × Int)) :
    ∀ s : SessionManagerState,
    List.Chain' (fun a b => b - a > 2000) (sessionRun s msgs).2 ∧
    (∀ t, ((sessionRun s msgs).2).head? = some t → t - s.lastRefreshAt > 2000) := by
  induction msgs with
  | nil => intro s; simp [sessionRun]
  | cons p rest ih =>
    intro s
    obtain ⟨d, now⟩ := p
    have h := ih (handleSaveSessionResult s d now).1
    rcases saveResult_step_cases s d now with ⟨hc, hlast, heffs⟩ | ⟨hlast, heffs⟩
    · rw [sessionRun_cons_snd, heffs]
      simp only [List.mem_singleton, eq_self_iff_true, if_true, List.singleton_append]
      refine ⟨List.chain'_cons'.mpr ⟨fun t ht => ?_, h.1⟩, fun t ht => ?_⟩
      · have h2 := h.2 t ht
        rw [hlast] at h2
        exact h2
      · simp only [List.head?_cons, Option.some.injEq] at ht
        omega
    · rw [sessionRun_cons_snd, heffs]
      simp only [List.not_mem_nil, if_false, List.nil_append]
      rw [hlast] at h
      exact h

/-! Helper lemmas about the WAV encoder. -/

/-- Clamp-then-scale keeps every converted sample inside the signed
16-bit range. -/
theorem sampleToInt16_bounds (x : Rat) :
    -32768 ≤ sampleToInt16 x ∧ sampleToInt16 x ≤ 32767 := by
  simp only [sampleToInt16, ratTrunc]
  set sample := max (-1 : Rat) (min 1 x) with hsample
  have h1 : (-1 : Rat) ≤ sample := le_max_left _ _
  have h2 : sample ≤ 1 := max_le (by norm_num) (min_le_left _ _)
  by_cases hneg : sample < 0
  · rw [if_pos hneg, if_pos (mul_neg_of_neg_of_pos hneg (by norm_num))]
    constructor
    · have hz : ((-32768 : ℤ) : Rat) ≤ sample * 32768 := by push_cast; nlinarith
      have := Int.ceil_mono hz
      rwa [Int.ceil_intCast] at this
    · refine Int.ceil_le.mpr ?_
      push_cast
      nlinarith
  · rw [if_neg hneg, if_neg (not_lt.mpr (mul_nonneg (not_lt.mp hneg) (by norm_num)))]
    constructor
    · have hz : (0 : Int) ≤ Int.floor (sample * 32767) :=
        Int.le_floor.mpr (by push_cast; nlinarith [not_lt.mp hneg])
      omega
    · have hm : Int.floor (sample * 32767) ≤ Int.floor (((32767 : ℤ) : Rat)) :=
        Int.floor_le_floor (by push_cast; nlinarith [not_lt.mp hneg])
      rwa [Int.floor_intCast] at hm

/-- The written WAV header is exactly 44 bytes. -/
theorem wavHeader_length (dataSize sr : Nat) : (wavHeader dataSize sr).length = 44 := rfl

/-- The PCM data region holds two bytes per input sample. -/
theorem flatten_i16le_length (buffer : List Rat) :
    ((buffer.map (fun x => i16le (sampleToInt16 x))).flatten).length = 2 * buffer.length := by
  induction buffer with
  | nil => simp
  | cons y rest ih =>
    rw [List.map_cons, List.flatten_cons, List.length_append, ih]
    simp [i16le, u16le]
    omega

/-- Raw little-endian decomposition of the RIFF chunk-size field. -/
theorem wav_riff_field (buffer : List Rat) (sr : Nat) :
    decodeU32le (float32ToWav buffer sr) 4 =
      (44 + buffer.length * 2 - 8) % 256 + 256 * ((44 + buffer.length * 2 - 8) / 256 % 256) +
      65536 * ((44 + buffer.length * 2 - 8) / 65536 % 256) +
      16777216 * ((44 + buffer.length * 2 - 8) / 16777216 % 256) := rfl

/-- Raw little-endian decomposition of the data-chunk size field. -/
theorem wav_data_field (buffer : List Rat) (sr : Nat) :
    decodeU32le (float32ToWav buffer sr) 40 =
      (buffer.length * 2) % 256 + 256 * ((buffer.length * 2) / 256 % 256) +
      65536 * ((buffer.length * 2) / 65536 % 256) +
      16777216 * ((buffer.length * 2) / 16777216 % 256) := rfl

/-! Concrete evaluation facts used to instantiate the claim theorems. -/

/-- A half-amplitude sample is above the voice threshold. -/
theorem energySq_loud : calculateRMSEnergySq [(1:Rat)/2] > voiceThreshold ^ 2 := by
  norm_num [calculateRMSEnergySq, voiceThreshold]

/-- A zero sample is below the voice threshold. -/
theorem energySq_silent : calculateRMSEnergySq [(0:Rat)] ≤ voiceThreshold ^ 2 := by
  norm_num [calculateRMSEnergySq, voiceThreshold]

/-- One second of samples plus one frame is not shorter than the minimum
recording length. -/
theorem audioLen_long :
    ¬(audioLengthMs [List.replicate 44100 (0:Rat), [(0:Rat)]] < minRecordingLength) := by
  have h : totalSamples [List.replicate 44100 (0:Rat), [(0:Rat)]] = 44101 := by
    unfold totalSamples
    rw [List.foldl_cons, List.foldl_cons, List.foldl_nil, List.length_replicate,
      List.length_singleton]
  rw [audioLengthMs, h]
  norm_num [minRecordingLength, sampleRate]

/-- A single-sample buffer is far below the minimum recording length. -/
theorem audioLen_short : audioLengthMs [[(0:Rat)]] < minRecordingLength := by
  norm_num [audioLengthMs, totalSamples, minRecordingLength, sampleRate]

/-- All frames of the one-frame silent run are below the threshold. -/
theorem silentFrames_all :
    ∀ p ∈ [([(0:Rat)], (0:Int))], calculateRMSEnergySq p.1 ≤ voiceThreshold ^ 2 := by
  intro p hp
  simp only [List.mem_singleton] at hp
  subst hp
  exact energySq_silent

end Vocalis

namespace Vocalis

/-- Claim C1: while no protected flag is set, a frame whose RMS energy
exceeds `voiceThreshold` seen at a speech onset (voice-detected still
false) while the assistant is speaking stops local playback and sends
exactly one interrupt signal to the server; a later above-threshold frame
of the same onset (voice-detected already true) sends none. -/
theorem interrupt_once_per_onset (s : AudioServiceState) (frame : List Rat) (now : Int)
    (b : AudioBuf)
    (hproc : s.isProcessing = false) (hvis : s.isVisionProcessing = false)
    (hgreet : s.isGreeting = false)
    (henergy : calculateRMSEnergySq frame > voiceThreshold ^ 2)
    (hspeak : s.isSpeaking = true ∨ s.audioState = AudioState.SPEAKING)
    (hsrc : s.currentSource = some b) :
    (s.isVoiceDetected = false →
      (handleAudioProcess s frame now).2.countP isWsInterrupt = 1 ∧
      (handleAudioProcess s frame now).1.isVoiceDetected = true ∧
      (handleAudioProcess s frame now).1.isPlaying = false ∧
      (handleAudioProcess s frame now).1.audioQueue = [] ∧
      Effect.sourceStop ∈ (handleAudioProcess s frame now).2) ∧
    (s.isVoiceDetected = true →
      (handleAudioProcess s frame now).2.countP isWsInterrupt = 0) := by
  have hnle : ¬(calculateRMSEnergySq frame ≤ voiceThreshold ^ 2) := not_le.mpr henergy
  constructor
  · intro hvd
    cases htid : s.playbackTimeoutId <;>
      simp [handleAudioProcess, handleAudioProcessTail, stopPlayback, clearPlaybackTimeout,
        hproc, hvis, hgreet, hsrc, henergy, hspeak, hvd, hnle, htid, isWsInterrupt,
        List.countP_append, List.countP_cons]
  · intro hvd
    simp [handleAudioProcess, handleAudioProcessTail, hproc, hvis, hgreet, henergy, hvd,
      hnle, isWsInterrupt, List.countP_cons]

/-- Witness for C1: a concrete barge-in while speaking. -/
theorem interrupt_once_per_onset_witness :
    calculateRMSEnergySq [(1:Rat)/2] > voiceThreshold ^ 2 ∧
    (handleAudioProcess { initState with
        isSpeaking := true
        audioState := AudioState.SPEAKING
        isPlaying := true
        currentSource := some (AudioBuf.mk 1) } [(1:Rat)/2] 0).2.countP isWsInterrupt = 1 :=
  ⟨energySq_loud,
   ((interrupt_once_per_onset { initState with
        isSpeaking := true
        audioState := AudioState.SPEAKING
        isPlaying := true
        currentSource := some (AudioBuf.mk 1) } [(1:Rat)/2] 0 (AudioBuf.mk 1)
      rfl rfl rfl energySq_loud (Or.inl rfl) rfl).1 rfl).1⟩

/-- Claim C2: `stopPlayback` called while a source is playing in the
SPEAKING state stops the source, empties the queue entirely, cancels the
safety timer, dispatches `PLAYBACK_STOP` with `interrupted = true` and the
interrupted state, and leaves the controller unable to play until a new
chunk is enqueued. -/
theorem stopPlayback_interrupts_and_clears (s : AudioServiceState) (b : AudioBuf)
    (hsrc : s.currentSource = some b) (hst : s.audioState = AudioState.SPEAKING) :
    (stopPlayback s).1.audioQueue = [] ∧
    (stopPlayback s).1.currentSource = none ∧
    (stopPlayback s).1.isPlaying = false ∧
    (stopPlayback s).1.isSpeaking = false ∧
    (stopPlayback s).1.playbackTimeoutId = none ∧
    (stopPlayback s).1.audioState = AudioState.INTERRUPTED ∧
    Effect.sourceStop ∈ (stopPlayback s).2 ∧
    Effect.dispatch (Event.playbackStop true none (some AudioState.SPEAKING)) ∈
      (stopPlayback s).2 ∧
    (s.playbackTimeoutId ≠ none → Effect.clearTimeout ∈ (stopPlayback s).2) := by
  cases htid : s.playbackTimeoutId <;>
    simp [stopPlayback, clearPlaybackTimeout, hsrc, hst, htid]

/-- Witness for C2: interrupting mid-queue (one source playing, two more
chunks queued). -/
theorem stopPlayback_interrupts_and_clears_witness :
    (stopPlayback { initState with
        currentSource := some (AudioBuf.mk 1)
        audioState := AudioState.SPEAKING
        isPlaying := true
        isSpeaking := true
        audioQueue := [AudioBuf.mk 2, AudioBuf.mk 3]
        playbackTimeoutId := some 2000 }).1.audioQueue = [] ∧
    Effect.dispatch (Event.playbackStop true none (some AudioState.SPEAKING)) ∈
      (stopPlayback { initState with
        currentSource := some (AudioBuf.mk 1)
        audioState := AudioState.SPEAKING
        isPlaying := true
        isSpeaking := true
        audioQueue := [AudioBuf.mk 2, AudioBuf.mk 3]
        playbackTimeoutId := some 2000 }).2 :=
  ⟨(stopPlayback_interrupts_and_clears _ (AudioBuf.mk 1) rfl rfl).1,
   (stopPlayback_interrupts_and_clears { initState with
        currentSource := some (AudioBuf.mk 1)
        audioState := AudioState.SPEAKING
        isPlaying := true
        isSpeaking := true
        audioQueue := [AudioBuf.mk 2, AudioBuf.mk 3]
        playbackTimeoutId := some 2000 } (AudioBuf.mk 1) rfl rfl).2.2.2.2.2.2.2.1⟩

/-- Claim C3: while any of the protected flags is set,
`handleAudioProcess` changes nothing (no accumulation, no interrupt, no
utterance) and dispatches only the `RECORDING_DATA` visualization event
with `isVoice` forced to false. -/
theorem protected_state_suppresses (s : AudioServiceState) (frame : List Rat) (now : Int)
    (hprot : s.isProcessing = true ∨ s.isVisionProcessing = true ∨ s.isGreeting = true) :
    handleAudioProcess s frame now =
      (s, [Effect.dispatch (Event.recordingData frame (calculateRMSEnergySq frame) false)]) := by
  simp only [handleAudioProcess, handleAudioProcessTail, hprot, if_true, ite_self]

/-- Witness for C3: a frame observed during the greeting state. -/
theorem protected_state_suppresses_witness :
    handleAudioProcess { initState with isGreeting := true } [(1:Rat)/2] 0 =
      ({ initState with isGreeting := true },
       [Effect.dispatch (Event.recordingData [(1:Rat)/2]
         (calculateRMSEnergySq [(1:Rat)/2]) false)]) :=
  protected_state_suppresses { initState with isGreeting := true } [(1:Rat)/2] 0
    (Or.inr (Or.inr rfl))

end Vocalis

namespace Vocalis

/-- Claim C4: a batch of chunks enqueued through `playAudioChunk` and
completed normally plays the buffers in exactly arrival order, dispatches
`PLAYBACK_START` only when playback begins from a non-playing state, and
dispatches exactly one `PLAYBACK_END` when the queue empties naturally:
one start and one end event for the whole batch. -/
theorem playback_batch_events (bs : List AudioBuf) (s : AudioServiceState)
    (hq : s.audioQueue = []) (hp : s.isPlaying = false) (hne : bs ≠ []) :
    startedBuffers (playerRun s (batchActions bs)).2 = bs ∧
    (playerRun s (batchActions bs)).2.countP isPlaybackStartEv = 1 ∧
    (playerRun s (batchActions bs)).2.countP isPlaybackEndEv = 1 := by
  obtain ⟨b, rest, rfl⟩ := List.exists_cons_of_ne_nil hne
  obtain ⟨s', e1, hstep, hp', hq', hsb, hcs, hce⟩ := enqueue_starts_idle s b hp hq
  have hbatch : batchActions (b :: rest) =
      PlayerAction.enqueue b ::
        (rest.map PlayerAction.enqueue ++ List.replicate (rest.length + 1) PlayerAction.ended) := by
    simp [batchActions]
  rw [hbatch, playerRun_cons, hstep]
  rw [playerRun_append, playerRun_enqueues_while_playing rest s' hp']
  obtain ⟨d1, d2, d3⟩ := playerRun_drain rest { s' with audioQueue := s'.audioQueue ++ rest }
    (by simp [hp']) (by simp [hq'])
  refine ⟨?_, ?_, ?_⟩
  · simp only [startedBuffers, List.filterMap_append, List.nil_append] at hsb d1 ⊢
    simp [hsb, d1]
  · simp [List.countP_append, hcs, d2]
  · simp [List.countP_append, hce, d3]

/-- Witness for C4: a three-chunk batch from an idle controller. -/
theorem playback_batch_events_witness :
    startedBuffers (playerRun initState
        (batchActions [AudioBuf.mk 1, AudioBuf.mk 2, AudioBuf.mk 3])).2 =
      [AudioBuf.mk 1, AudioBuf.mk 2, AudioBuf.mk 3] ∧
    (playerRun initState
        (batchActions [AudioBuf.mk 1, AudioBuf.mk 2, AudioBuf.mk 3])).2.countP
      isPlaybackStartEv = 1 ∧
    (playerRun initState
        (batchActions [AudioBuf.mk 1, AudioBuf.mk 2, AudioBuf.mk 3])).2.countP
      isPlaybackEndEv = 1 :=
  playback_batch_events [AudioBuf.mk 1, AudioBuf.mk 2, AudioBuf.mk 3] initState rfl rfl
    (List.cons_ne_nil _ _)

/-- Claim C5: `playNextChunk` arms a safety timeout of
`duration * 1000 + 1000` ms for every buffer it starts; when the timeout
handler fires it advances to the next queued buffer or, with an empty
queue, resets the playing state and dispatches `PLAYBACK_END`; when the
completion callback fires instead, the timer is cancelled. -/
theorem playback_safety_timeout (s : AudioServiceState) (b : AudioBuf) (rest : List AudioBuf) :
    (s.audioQueue = b :: rest →
      (playNextChunk s).1.playbackTimeoutId = some (b.duration * 1000 + 1000) ∧
      Effect.sourceStart b ∈ (playNextChunk s).2 ∧
      Effect.armTimeout (b.duration * 1000 + 1000) ∈ (playNextChunk s).2) ∧
    (s.audioQueue = b :: rest → Effect.sourceStart b ∈ (playbackTimeoutFires s).2) ∧
    (s.audioQueue = [] →
      (playbackTimeoutFires s).1.isPlaying = false ∧
      (playbackTimeoutFires s).1.isSpeaking = false ∧
      (playbackTimeoutFires s).1.audioState = AudioState.INACTIVE ∧
      (playbackTimeoutFires s).2 =
        [Effect.dispatch (Event.playbackEnd AudioState.SPEAKING false true)]) ∧
    (s.playbackTimeoutId ≠ none → Effect.clearTimeout ∈ (sourceOnEnded s).2) := by
  refine ⟨fun hq => ?_, fun hq => ?_, fun hq => ?_, fun htid0 => ?_⟩
  · cases htid : s.playbackTimeoutId <;>
      simp [playNextChunk, clearPlaybackTimeout, hq, htid]
  · cases htid : s.playbackTimeoutId <;>
      simp [playbackTimeoutFires, playNextChunk, clearPlaybackTimeout, hq, htid]
  · simp [playbackTimeoutFires, hq]
  · cases htid : s.playbackTimeoutId with
    | none => exact absurd htid htid0
    | some d =>
      cases hq : s.audioQueue <;>
        simp [sourceOnEnded, clearPlaybackTimeout, playNextChunk, htid, hq]

/-- Witness for C5: a two-second buffer at the queue head arms a
3000 ms timer; a stalled completion advances or ends; a completion cancels
the armed timer. -/
theorem playback_safety_timeout_witness :
    (playNextChunk { initState with
        audioQueue := [AudioBuf.mk 2]
        playbackTimeoutId := some 7 }).1.playbackTimeoutId =
      some ((AudioBuf.mk 2).duration * 1000 + 1000) ∧
    Effect.sourceStart (AudioBuf.mk 2) ∈
      (playbackTimeoutFires { initState with
        audioQueue := [AudioBuf.mk 2]
        playbackTimeoutId := some 7 }).2 ∧
    (playbackTimeoutFires { initState with
        playbackTimeoutId := some 7 }).1.isPlaying = false ∧
    Effect.clearTimeout ∈
      (sourceOnEnded { initState with playbackTimeoutId := some 7 }).2 :=
  ⟨((playback_safety_timeout { initState with
        audioQueue := [AudioBuf.mk 2]
        playbackTimeoutId := some 7 } (AudioBuf.mk 2) []).1 rfl).1,
   (playback_safety_timeout { initState with
        audioQueue := [AudioBuf.mk 2]
        playbackTimeoutId := some 7 } (AudioBuf.mk 2) []).2.1 rfl,
   ((playback_safety_timeout { initState with
        playbackTimeoutId := some 7 } (AudioBuf.mk 2) []).2.2.1 rfl).1,
   (playback_safety_timeout { initState with
        playbackTimeoutId := some 7 } (AudioBuf.mk 2) []).2.2.2 (by simp)⟩

end Vocalis

namespace Vocalis

/-- Claim C6: over any captured frame sequence in which no frame's energy
exceeds `voiceThreshold`, the voice-detected flag never becomes true, the
accumulation buffer stays empty, and no utterance is sent to the server —
including when recording is stopped afterwards. -/
theorem silence_never_sends_utterance (s : AudioServiceState)
    (frames : List (List Rat × Int))
    (hvd : s.isVoiceDetected = false) (hb : s.audioBuffer = [])
    (hq : ∀ p ∈ frames, calculateRMSEnergySq p.1 ≤ voiceThreshold ^ 2) :
    (processFrames s frames).1.isVoiceDetected = false ∧
    (processFrames s frames).1.audioBuffer = [] ∧
    (processFrames s frames).2.countP isWsSend = 0 ∧
    (stopRecording (processFrames s frames).1).2.countP isWsSend = 0 := by
  obtain ⟨h1, h2⟩ := silent_run_inert frames s hvd hq
  refine ⟨by rw [h1, hvd], by rw [h1, hb], h2, ?_⟩
  rw [h1]
  unfold stopRecording
  split
  · simp [isWsSend]
  · simp [sendAudioChunk, hb, isWsSend, List.countP_cons]

/-- Witness for C6: one silent frame on a fresh recording state. -/
theorem silence_never_sends_utterance_witness :
    (∀ p ∈ [([(0:Rat)], (0:Int))], calculateRMSEnergySq p.1 ≤ voiceThreshold ^ 2) ∧
    (processFrames initState [([(0:Rat)], (0:Int))]).2.countP isWsSend = 0 :=
  ⟨silentFrames_all,
   (silence_never_sends_utterance initState [([(0:Rat)], (0:Int))] rfl rfl
     silentFrames_all).2.2.1⟩

/-- Claim C7: a voice segment finalized by the silence timeout whose
accumulated duration is at least `minRecordingLength` sends exactly one
utterance, the WAV encoding of all accumulated frames' samples
concatenated in capture order, and clears the buffer. -/
theorem finalized_segment_sends_once (s : AudioServiceState) (frame : List Rat) (now : Int)
    (hproc : s.isProcessing = false) (hvis : s.isVisionProcessing = false)
    (hgreet : s.isGreeting = false)
    (hvd : s.isVoiceDetected = true)
    (hsil : calculateRMSEnergySq frame ≤ voiceThreshold ^ 2)
    (htime : now - s.lastVoiceTime > silenceTimeout)
    (hlen : ¬(audioLengthMs (s.audioBuffer ++ [frame]) < minRecordingLength)) :
    (handleAudioProcess s frame now).2.countP isWsSend = 1 ∧
    Effect.wsSendAudio (float32ToWav (s.audioBuffer ++ [frame]).flatten sampleRate) ∈
      (handleAudioProcess s frame now).2 ∧
    (handleAudioProcess s frame now).1.audioBuffer = [] ∧
    (handleAudioProcess s frame now).1.isVoiceDetected = false := by
  simp [handleAudioProcess, handleAudioProcessTail, sendAudioChunk, not_lt.mpr hsil,
    hproc, hvis, hgreet, hvd, htime, hsil, hlen, isWsSend, List.countP_append,
    List.countP_cons]

/-- Witness for C7: one second of accumulated audio finalized by a silent
frame arriving two seconds after the last voiced frame. -/
theorem finalized_segment_sends_once_witness :
    calculateRMSEnergySq [(0:Rat)] ≤ voiceThreshold ^ 2 ∧
    (handleAudioProcess { initState with
        isVoiceDetected := true
        audioBuffer := [List.replicate 44100 (0:Rat)] } [(0:Rat)] 2000).2.countP isWsSend = 1 ∧
    (handleAudioProcess { initState with
        isVoiceDetected := true
        audioBuffer := [List.replicate 44100 (0:Rat)] } [(0:Rat)] 2000).1.audioBuffer = [] :=
  ⟨energySq_silent,
   (finalized_segment_sends_once { initState with
        isVoiceDetected := true
        audioBuffer := [List.replicate 44100 (0:Rat)] } [(0:Rat)] 2000
      rfl rfl rfl rfl energySq_silent (by decide) audioLen_long).1,
   (finalized_segment_sends_once { initState with
        isVoiceDetected := true
        audioBuffer := [List.replicate 44100 (0:Rat)] } [(0:Rat)] 2000
      rfl rfl rfl rfl energySq_silent (by decide) audioLen_long).2.2.1⟩

/-- Claim C8: `sendAudioChunk` on a segment shorter than
`minRecordingLength` with the voice-detected flag unset discards it
silently: the buffer is cleared and no effect (no utterance, no error
event) is produced. -/
theorem short_segment_discarded_silently (s : AudioServiceState)
    (hvd : s.isVoiceDetected = false)
    (hshort : audioLengthMs s.audioBuffer < minRecordingLength) :
    sendAudioChunk s = ({ s with audioBuffer := [] }, []) := by
  unfold sendAudioChunk
  split
  · next h =>
    have hb : s.audioBuffer = [] := List.length_eq_zero.mp h
    cases s
    simp_all
  · split
    · rfl
    · split
      · rfl
      · next hcond => exact absurd ⟨hvd, hshort⟩ hcond

/-- Witness for C8: a single-frame fragment far below the minimum
length. -/
theorem short_segment_discarded_silently_witness :
    audioLengthMs [[(0:Rat)]] < minRecordingLength ∧
    sendAudioChunk { initState with audioBuffer := [[(0:Rat)]] } = (initState, []) :=
  ⟨audioLen_short,
   short_segment_discarded_silently { initState with audioBuffer := [[(0:Rat)]] }
     rfl audioLen_short⟩

/-- Claim C9: a successful `save_session_result` triggers a sessions-list
refresh only when more than 2000 ms have elapsed since the previous
refresh, and over any sequence of messages consecutive refresh timestamps
are more than 2000 ms apart — at most one autosave-triggered refresh per
2-second window. -/
theorem autosave_refresh_throttled (s : SessionManagerState) (d : SaveSessionResult)
    (now : Int) (msgs : List (SaveSessionResult × Int))
    (hemit : SessionEffect.fetchSessions ∈ (handleSaveSessionResult s d now).2) :
    now - s.lastRefreshAt > 2000 ∧
    List.Chain' (fun a b => b - a > 2000) (sessionRun s msgs).2 := by
  refine ⟨?_, (sessionRun_refresh_gaps msgs s).1⟩
  rcases saveResult_step_cases s d now with ⟨hc, _, _⟩ | ⟨_, heffs⟩
  · exact hc
  · rw [heffs] at hemit
    simp at hemit

/-- Witness for C9: three successful autosaves at 5000, 6000 and 8000 ms
against a fresh manager. -/
theorem autosave_refresh_throttled_witness :
    SessionEffect.fetchSessions ∈
      (handleSaveSessionResult ⟨0, none, none⟩ ⟨true, none⟩ 5000).2 ∧
    ((5000 : Int) - 0 > 2000 ∧
     List.Chain' (fun a b => b - a > 2000)
       (sessionRun ⟨0, none, none⟩
         [(⟨true, none⟩, 5000), (⟨true, none⟩, 6000), (⟨true, none⟩, 8000)]).2) :=
  ⟨by decide,
   autosave_refresh_throttled ⟨0, none, none⟩ ⟨true, none⟩ 5000
     [(⟨true, none⟩, 5000), (⟨true, none⟩, 6000), (⟨true, none⟩, 8000)] (by decide)⟩

/-- Claim C10: `float32ToWav` yields exactly `44 + 2n` bytes for `n`
samples, its RIFF chunk-size field decodes to the total size minus 8, its
data-chunk size field decodes to `2n`, and every sample is clamped to
`[-1, 1]` and scaled (negatives by 32768, non-negatives by 32767) into
the signed 16-bit range. -/
theorem float32ToWav_spec (buffer : List Rat) (sr : Nat)
    (h : 36 + 2 * buffer.length < 4294967296) :
    (float32ToWav buffer sr).length = 44 + 2 * buffer.length ∧
    decodeU32le (float32ToWav buffer sr) 4 = 44 + 2 * buffer.length - 8 ∧
    decodeU32le (float32ToWav buffer sr) 40 = 2 * buffer.length ∧
    ∀ x ∈ buffer, -32768 ≤ sampleToInt16 x ∧ sampleToInt16 x ≤ 32767 := by
  refine ⟨?_, ?_, ?_, fun x _ => sampleToInt16_bounds x⟩
  · show (wavHeader (buffer.length * 2) sr ++
      (buffer.map (fun x => i16le (sampleToInt16 x))).flatten).length = 44 + 2 * buffer.length
    rw [List.length_append, wavHeader_length, flatten_i16le_length]
  · rw [wav_riff_field]
    omega
  · rw [wav_data_field]
    omega

/-- Witness for C10: a two-sample buffer at 8 kHz. -/
theorem float32ToWav_spec_witness :
    36 + 2 * [(1:Rat)/2, -(3:Rat)/4].length < 4294967296 ∧
    (float32ToWav [(1:Rat)/2, -(3:Rat)/4] 8000).length =
      44 + 2 * [(1:Rat)/2, -(3:Rat)/4].length :=
  ⟨by decide, (float32ToWav_spec [(1:Rat)/2, -(3:Rat)/4] 8000 (by decide)).1⟩

end Vocalis
